import Mathlib

/-!
Shallow embedding of the resilient execution pipeline of the loom repository:
the single-prompt Executor (package executor), the chain orchestrator
(package chain) and the cache / circuit-breaker middleware decorators
(package middleware), together with proofs about the claims on them.

Modelling conventions:
* Go machine integers that only count (attempts, tokens) are Nat; time
  durations and instants are Nat nanoseconds; Go float64 fields that the
  pipeline never computes with (Temperature, TopP) are Rat, and the circuit
  breaker failure rate (a float64 division compared against a float64
  threshold) is modelled with exact Rat arithmetic.
* The external LLM service (provider.Provider.Complete) is an oracle
  function of the request, the global call index (how many Complete calls
  happened before it in the run) and the current clock; the clock lets an
  oracle model a context whose deadline has expired (Complete then returns
  the context error, as a real ctx-aware HTTP client would).
* Go (value, error) returns become Except; functions that Go runs for
  effect also return the trace of external events (Complete calls, prompt
  renders) they produced, so that claims about "the service is invoked
  exactly once / never" are statable.
* core.Prompt is consumed opaquely by this pipeline (spec section 3: the
  task is an external collaborator exposing render); it is modelled as its
  ID, its metadata and its render capability.
-/

namespace Loom

/-- provider.TokenUsage (provider package, part_002 lines 31-35). -/
structure TokenUsage where
  promptTokens : Nat
  completionTokens : Nat
  totalTokens : Nat
deriving DecidableEq

/-- provider.CompletionRequest (part_002 lines 10-19).  Metadata values are
opaque to the pipeline and modelled as strings. -/
structure CompletionRequest where
  prompt : String
  system : String
  model : String
  temperature : Rat
  maxTokens : Nat
  stopTokens : List String
  topP : Rat
  metadata : List (String × String)
deriving DecidableEq

/-- provider.CompletionResponse (part_002 lines 22-28). -/
structure CompletionResponse where
  content : String
  model : String
  usage : TokenUsage
  finishReason : String
  metadata : List (String × String)
deriving DecidableEq

/-- Go error values as the pipeline observes them: plain errors
(errors.New / fmt.Errorf without %w), wrapping errors (fmt.Errorf with a
%w verb keeps the wrapped error observable via errors.Unwrap), and the two
context sentinel errors. -/
inductive GoError where
  | msg (s : String)
  | wrap (s : String) (inner : GoError)
  | canceled
  | deadlineExceeded
deriving DecidableEq

/-- core.Input (core package): variable values for rendering; values are
opaque to the pipeline and modelled as strings. -/
abbrev Input := List (String × String)

/-- core.Rendered (core package): system + user message produced by
rendering, echoing the input. -/
structure Rendered where
  system : String
  user : String
  input : Input
deriving DecidableEq

/-- core.Prompt at the boundary this pipeline consumes: the executor and
chain only call Render and read Metadata (and the ID identifies which
prompt was rendered in the event trace). renderF stands for the configured
renderer; rendering may fail (render error). -/
structure Prompt where
  id : String
  metadata : List (String × String)
  renderF : Input → Except GoError Rendered

/-- Prompt.Render (core package): delegates to the configured renderer. -/
def Prompt.Render (p : Prompt) (input : Input) : Except GoError Rendered :=
  p.renderF input

/-- The provider.Provider.Complete capability as an oracle: the outcome may
depend on the request, on the global call index and on the clock (so an
oracle can model an external service observing an expired context). -/
abbrev ProviderF := CompletionRequest → Nat → Nat → Except GoError CompletionResponse

/-- executor.Executor (part_007 lines 15-20): provider, retry count,
backoff policy (none models a nil BackoffFunc) and base timeout. -/
structure Executor where
  provider : ProviderF
  maxRetries : Nat
  backoff : Option (Nat → Nat)
  baseTimeout : Nat

/-- executor.ExecuteRequest (part_007 lines 68-76). -/
structure ExecuteRequest where
  prompt : Option Prompt
  input : Input
  model : String
  temperature : Rat
  maxTokens : Nat
  stopTokens : List String
  timeout : Nat

/-- executor.ExecuteResult (part_007 lines 79-85). -/
structure ExecuteResult where
  content : String
  usage : TokenUsage
  model : String
  rendered : Rendered
  attempts : Nat
deriving DecidableEq

/-- One observed Provider.Complete invocation: the request sent, the global
call index, and the clock at which it was issued. -/
abbrev CallEv := CompletionRequest × Nat × Nat

/-- Everything one Executor.Execute call produces: the returned
(result, error), the Complete calls it made in order, the prompt IDs it
rendered, and the updated global call index and clock. -/
structure ExecOut where
  result : Except GoError ExecuteResult
  calls : List CallEv
  renders : List String
  callIdx : Nat
  clock : Nat

/-- Delay slept between attempts (part_007 lines 135-137): Backoff(attempt)
when a backoff is configured, otherwise no sleep. -/
def backoffDelay : Option (Nat → Nat) → Nat → Nat
  | some b, attempt => b attempt
  | none, _ => 0

/-- The completion request Executor.Execute builds once before the attempt
loop (part_007 lines 105-116): rendered user/system text, the request
model defaulted to "gpt-3.5-turbo" when empty, and the prompt metadata. -/
def buildCReq (p : Prompt) (req : ExecuteRequest) (rend : Rendered) : CompletionRequest :=
  let creq : CompletionRequest :=
    { prompt := rend.user, system := rend.system, model := req.model,
      temperature := req.temperature, maxTokens := req.maxTokens,
      stopTokens := req.stopTokens, topP := 0, metadata := p.metadata }
  if creq.model = "" then { creq with model := "gpt-3.5-turbo" } else creq

/-- The attempt loop of Executor.Execute (part_007 lines 117-139).
Arguments mirror the Go loop state: attempt is the 0-based loop counter,
remaining = MaxRetries - attempt, attempts the Go attempts counter before
the increment at the top of the body.  On failure of a non-final attempt
the code calls time.Sleep(Backoff(attempt)): an uninterruptible sleep, so
the clock advances by the full delay and the loop continues; there is no
check of ctx during the sleep and no inspection of the error kind. -/
def executeAttempts (prov : ProviderF) (b : Option (Nat → Nat)) (creq : CompletionRequest)
    (rend : Rendered) (attempt remaining attempts callIdx clock : Nat) : ExecOut :=
  match prov creq callIdx clock with
  | .ok resp =>
      { result := .ok { content := resp.content, usage := resp.usage, model := resp.model,
                        rendered := rend, attempts := attempts + 1 },
        calls := [(creq, callIdx, clock)], renders := [],
        callIdx := callIdx + 1, clock := clock }
  | .error e =>
      match remaining with
      | 0 =>
          { result := .error (.wrap ("executor after " ++ toString (attempts + 1) ++ " attempts") e),
            calls := [(creq, callIdx, clock)], renders := [],
            callIdx := callIdx + 1, clock := clock }
      | r + 1 =>
          let out := executeAttempts prov b creq rend (attempt + 1) r (attempts + 1)
                       (callIdx + 1) (clock + backoffDelay b attempt)
          { out with calls := (creq, callIdx, clock) :: out.calls }

/-- The effective timeout Executor.Execute applies (part_007 lines 96-99):
the request timeout, or the base timeout when the request one is zero.
The resulting context deadline is observed by the provider through the
clock argument of the oracle. -/
def Executor.effTimeout (e : Executor) (req : ExecuteRequest) : Nat :=
  if req.timeout = 0 then e.baseTimeout else req.timeout

/-- Executor.Execute (part_007 lines 88-140): nil-prompt check, render
(render failure is fatal, wrapped as "executor render", no Complete call),
request construction with the model default, then the attempt loop. -/
def Executor.Execute (e : Executor) (req : ExecuteRequest) (callIdx clock : Nat) : ExecOut :=
  match req.prompt with
  | none =>
      { result := .error (.msg "executor: prompt is required"), calls := [], renders := [],
        callIdx := callIdx, clock := clock }
  | some p =>
      match p.renderF req.input with
      | .error err =>
          { result := .error (.wrap "executor render" err), calls := [], renders := [p.id],
            callIdx := callIdx, clock := clock }
      | .ok rendered =>
          let out := executeAttempts e.provider e.backoff (buildCReq p req rendered) rendered
                       0 e.maxRetries 0 callIdx clock
          { out with renders := [p.id] }

/-- Cumulative trace of external events threaded through a chain run:
next global call index, clock, all Complete calls and all renders so far. -/
structure Trace where
  callIdx : Nat
  clock : Nat
  calls : List CallEv
  renders : List String
deriving DecidableEq

/-- Executor.Execute acting on a cumulative trace: runs Execute at the
trace's call index and clock and appends the produced events. -/
def Executor.ExecuteTr (e : Executor) (req : ExecuteRequest) (tr : Trace) :
    Except GoError ExecuteResult × Trace :=
  let out := e.Execute req tr.callIdx tr.clock
  (out.result,
   { callIdx := out.callIdx, clock := out.clock,
     calls := tr.calls ++ out.calls, renders := tr.renders ++ out.renders })

/-- chain.ChainResult (part_000 lines 16-18): step outputs keyed by step
name (a Go map; modelled as an association list with overwriting update). -/
structure ChainResult where
  outputs : List (String × String)
deriving DecidableEq

/-- Overwriting update of a Go map modelled as an association list:
the value stored under the key is replaced, other keys are untouched. -/
def setKey {α : Type} : List (String × α) → String → α → List (String × α)
  | [], k, v => [(k, v)]
  | (k1, v1) :: rest, k, v =>
      if k1 = k then (k, v) :: rest else (k1, v1) :: setKey rest k v

/-- ChainResult.Get (part_000 lines 21-26): output of a step by name, empty
string when absent. -/
def ChainResult.Get (c : ChainResult) (step : String) : String :=
  match c.outputs.lookup step with
  | some v => v
  | none => ""

/-- chain.stepDef (part_000 lines 72-80).  The condition receives the
current ChainResult (the Go version also receives ctx, which no caller's
condition needs for its answer; the context is dropped here). -/
structure stepDef where
  name : String
  prompt : Option Prompt
  maxRetries : Nat
  backoff : Option (Nat → Nat)
  timeout : Nat
  fallback : Option Prompt
  condition : Option (ChainResult → Bool)

/-- chain.node (part_000 lines 101-104): a single step or a parallel group. -/
structure node where
  parallel : Bool
  steps : List stepDef

/-- chain.Chain (part_000 lines 107-112). -/
structure Chain where
  name : String
  nodes : List node
  exec : Option Executor
  defaultModel : String

/-- The %q verb of fmt.Errorf as used on step names: the name in double
quotes (escaping of special characters inside the name is not modelled;
the claims use plain names). -/
def goQuote (s : String) : String := "\"" ++ s ++ "\""

/-- The skip test of both Execute and runParallel (part_000 lines 186 and
261): a step is skipped when it has a condition and it evaluates false
against the current ChainResult. -/
def stepSkipped (s : stepDef) (result : List (String × String)) : Bool :=
  match s.condition with
  | some cond => ! cond ⟨result⟩
  | none => false

/-- The ExecuteRequest runStep builds (part_000 lines 209-214): prompt,
current input and the per-step timeout; the model is the chain default
(Go assigns it only when non-empty, which is the same since the zero value
of the field is the empty string). -/
def stepReq (c : Chain) (s : stepDef) (input : Input) : ExecuteRequest :=
  { prompt := s.prompt, input := input, model := c.defaultModel,
    temperature := 0, maxTokens := 0, stopTokens := [], timeout := s.timeout }

/-- context.WithTimeout (part_000 lines 202-207): a positive per-step
timeout installs a deadline of clock + timeout, capped by any deadline
already present; a zero timeout leaves the context unchanged. -/
def ctxDeadline (deadline : Option Nat) (clock timeout : Nat) : Option Nat :=
  if 0 < timeout then
    match deadline with
    | none => some (clock + timeout)
    | some d => some (min d (clock + timeout))
  else deadline

/-- The retry loop of Chain.runStep (part_000 lines 215-241): attempts the
primary prompt maxRetries + 1 times through the executor; on the final
failure runs the fallback once if set (its failure surfaces the primary
error wrapped as "step and fallback failed"); between attempts, when a
backoff is set, selects on ctx.Done() against time.After(backoff(attempt)):
if the deadline falls strictly inside the sleep the step returns the
context error (deadline exceeded) immediately, otherwise the sleep
completes. -/
def runStepAttempts (e : Executor) (deadline : Option Nat) (req : ExecuteRequest)
    (s : stepDef) (attempt remaining : Nat) (tr : Trace) :
    Except GoError String × Trace :=
  let o := e.ExecuteTr req tr
  match o.1 with
  | .ok r => (.ok r.content, o.2)
  | .error err =>
      match remaining with
      | 0 =>
          match s.fallback with
          | some fb =>
              let o2 := e.ExecuteTr { req with prompt := some fb } o.2
              match o2.1 with
              | .ok r2 => (.ok r2.content, o2.2)
              | .error _ => (.error (.wrap "step and fallback failed" err), o2.2)
          | none => (.error err, o.2)
      | r + 1 =>
          match s.backoff with
          | none => runStepAttempts e deadline req s (attempt + 1) r o.2
          | some b =>
              match deadline with
              | some dl =>
                  if dl < o.2.clock + b attempt then
                    (.error .deadlineExceeded, { o.2 with clock := max o.2.clock dl })
                  else
                    runStepAttempts e deadline req s (attempt + 1) r
                      { o.2 with clock := o.2.clock + b attempt }
              | none =>
                  runStepAttempts e deadline req s (attempt + 1) r
                    { o.2 with clock := o.2.clock + b attempt }

/-- Chain.runStep (part_000 lines 201-249): installs the per-step timeout,
then either runs the retry loop through the executor, or — with no
executor — renders the prompt and returns its user text.  (A nil prompt in
render-only mode would be a nil dereference in Go; modelled as an error,
unreachable in the claims.) -/
def Chain.runStep (c : Chain) (deadline : Option Nat) (s : stepDef) (input : Input)
    (tr : Trace) : Except GoError String × Trace :=
  let deadline := ctxDeadline deadline tr.clock s.timeout
  match c.exec with
  | some e => runStepAttempts e deadline (stepReq c s input) s 0 s.maxRetries tr
  | none =>
      match s.prompt with
      | some p =>
          let tr1 := { tr with renders := tr.renders ++ [p.id] }
          match p.renderF input with
          | .error err => (.error err, tr1)
          | .ok rendered => (.ok rendered.user, tr1)
      | none => (.error (.msg "nil prompt"), tr)

/-- The mutable state of one Chain.Execute call: result.outputs,
currentInput, and the cumulative event trace. -/
structure ChainState where
  result : List (String × String)
  current : Input
  tr : Trace
deriving DecidableEq

/-- The launch/collect phase of Chain.runParallel (part_000 lines 260-272):
every non-skipped step of the group runs with the same input snapshot and
the condition is checked against the shared result from before the group;
the concurrent interleaving is modelled by running the goroutines in
declaration order, which also stands for the channel receive order (the
claims instantiated here have at most one failing step, where the Go
nondeterminism is immaterial). -/
def runParallelCollect (c : Chain) (deadline : Option Nat) (resultSoFar : List (String × String))
    (input : Input) : List stepDef → Trace → List (String × Except GoError String) × Trace
  | [], tr => ([], tr)
  | s :: rest, tr =>
      if stepSkipped s resultSoFar then runParallelCollect c deadline resultSoFar input rest tr
      else
        let o := c.runStep deadline s input tr
        let q := runParallelCollect c deadline resultSoFar input rest o.2
        ((s.name, o.1) :: q.1, q.2)

/-- The drain loop of Chain.runParallel (part_000 lines 273-278): the first
error among the collected results is returned as-is; otherwise the outputs
are assembled into the group map. -/
def collectPairs : List (String × String) → List (String × Except GoError String) →
    Except GoError (List (String × String))
  | out, [] => .ok out
  | _, (_, .error e) :: _ => .error e
  | out, (nm, .ok v) :: rest => collectPairs (setKey out nm v) rest

/-- Chain.runParallel (part_000 lines 251-280). -/
def Chain.runParallel (c : Chain) (deadline : Option Nat) (steps : List stepDef)
    (input : Input) (result : List (String × String)) (tr : Trace) :
    Except GoError (List (String × String)) × Trace :=
  let q := runParallelCollect c deadline result input steps tr
  (collectPairs [] q.1, q.2)

/-- The sequential-node body of Chain.Execute (part_000 lines 185-195):
each step is skipped when its condition is false against the current
result; a failure is returned wrapped with the step name; a success is
written into the result and merged into the current input. -/
def execSeqSteps (c : Chain) (deadline : Option Nat) :
    List stepDef → ChainState → Except GoError ChainState
  | [], st => .ok st
  | s :: rest, st =>
      if stepSkipped s st.result then execSeqSteps c deadline rest st
      else
        let o := c.runStep deadline s st.current st.tr
        match o.1 with
        | .error err => .error (.wrap ("chain step " ++ goQuote s.name) err)
        | .ok out =>
            execSeqSteps c deadline rest
              { result := setKey st.result s.name out,
                current := setKey st.current s.name out, tr := o.2 }

/-- One node of Chain.Execute (part_000 lines 174-196): a parallel group
runs runParallel and merges its outputs into the result and the current
input; a sequential node runs its steps in order. -/
def execNode (c : Chain) (deadline : Option Nat) (n : node) (st : ChainState) :
    Except GoError ChainState :=
  if n.parallel then
    let o := c.runParallel deadline n.steps st.current st.result st.tr
    match o.1 with
    | .error e => .error e
    | .ok outs =>
        .ok (outs.foldl
              (fun acc kv =>
                { acc with result := setKey acc.result kv.1 kv.2,
                           current := setKey acc.current kv.1 kv.2 })
              { st with tr := o.2 })
  else execSeqSteps c deadline n.steps st

/-- The node loop of Chain.Execute: nodes run strictly in order; the first
failing node aborts the whole call. -/
def Chain.ExecuteNodes (c : Chain) (deadline : Option Nat) :
    List node → ChainState → Except GoError ChainState
  | [], st => .ok st
  | n :: rest, st =>
      match execNode c deadline n st with
      | .error e => .error e
      | .ok st1 => Chain.ExecuteNodes c deadline rest st1

/-- Chain.Execute (part_000 lines 168-199): runs the nodes from an empty
result and a copy of the input; on any failure returns (nil, err) — the Go
signature (*ChainResult, error) is kept as the pair of options. -/
def Chain.Execute (c : Chain) (deadline : Option Nat) (input : Input) (tr : Trace) :
    Option ChainResult × Option GoError :=
  match c.ExecuteNodes deadline c.nodes { result := [], current := input, tr := tr } with
  | .ok st => (some ⟨st.result⟩, none)
  | .error e => (none, some e)

instance {ε α : Type} [DecidableEq ε] [DecidableEq α] : DecidableEq (Except ε α) := fun a b =>
  match a, b with
  | .ok x, .ok y => decidable_of_iff (x = y) (by simp)
  | .error x, .error y => decidable_of_iff (x = y) (by simp)
  | .ok _, .error _ => .isFalse (by simp)
  | .error _, .ok _ => .isFalse (by simp)

/-- The circuit breaker state constants (middleware.go lines 261-265). -/
inductive CBPhase where
  | cbClosed
  | cbOpen
  | cbHalfOpen
deriving DecidableEq

/-- The mutable fields of circuitBreakerProvider (middleware.go lines
250-259): request and failure counters, current state, openUntil instant.
Threshold and timeout are construction constants and passed separately. -/
structure CBState where
  requests : Nat
  failures : Nat
  state : CBPhase
  openUntil : Nat
deriving DecidableEq

/-- The fresh breaker state built by CircuitBreaker (middleware.go lines
269-273): zero counters, closed, zero openUntil. -/
def cbInit : CBState := { requests := 0, failures := 0, state := .cbClosed, openUntil := 0 }

/-- Outcome of one circuitBreakerProvider.Complete call: the new breaker
state, the returned (response, error), and whether the inner service was
invoked. -/
structure CBOutcome where
  st : CBState
  result : Except GoError CompletionResponse
  innerCalled : Bool
deriving DecidableEq

/-- circuitBreakerProvider.Complete (middleware.go lines 275-307), run
sequentially (the Go code guards the transitions with a mutex): while open
and now before openUntil, fail fast with context.DeadlineExceeded without
calling the inner service; when open and the timeout has elapsed, move to
half-open and proceed.  Every admitted request increments the request
counter; a failure increments the failure counter and (in half-open)
re-opens with a fresh openUntil, or (otherwise) opens when at least 10
requests have been counted and failures/requests reaches the threshold;
a success in half-open closes the breaker.  The inner call outcome is the
oracle argument.  The float64 rate comparison is exact Rat arithmetic. -/
def cbComplete (threshold : Rat) (timeout : Nat) (st : CBState) (now : Nat)
    (inner : Except GoError CompletionResponse) : CBOutcome :=
  if st.state = .cbOpen ∧ now < st.openUntil then
    { st := st, result := .error .deadlineExceeded, innerCalled := false }
  else
    let st1 : CBState := if st.state = .cbOpen then { st with state := .cbHalfOpen } else st
    let st2 : CBState := { st1 with requests := st1.requests + 1 }
    match inner with
    | .error e =>
        let st3 : CBState := { st2 with failures := st2.failures + 1 }
        if st3.state = .cbHalfOpen then
          { st := { st3 with state := .cbOpen, openUntil := now + timeout },
            result := .error e, innerCalled := true }
        else if 10 ≤ st3.requests ∧ threshold ≤ (st3.failures : Rat) / (st3.requests : Rat) then
          { st := { st3 with state := .cbOpen, openUntil := now + timeout },
            result := .error e, innerCalled := true }
        else
          { st := st3, result := .error e, innerCalled := true }
    | .ok resp =>
        if st2.state = .cbHalfOpen then
          { st := { st2 with state := .cbClosed }, result := .ok resp, innerCalled := true }
        else
          { st := st2, result := .ok resp, innerCalled := true }

/-- middleware cacheEntry (middleware.go lines 168-171).  The stored bytes
are the JSON encoding of the response; encode/decode round-trip exactly on
the modelled fields, so the value is kept directly. -/
structure cacheEntry where
  val : CompletionResponse
  expires : Nat
deriving DecidableEq

/-- middleware.InMemoryCache (middleware.go lines 163-166): a map from key
to entry (the mutex only guards concurrent access). -/
structure InMemoryCache where
  store : List (String × cacheEntry)
deriving DecidableEq

/-- InMemoryCache.Get (middleware.go lines 177-185): a hit only when the
key is present and now is not strictly after the entry's expiry. -/
def InMemoryCache.Get (m : InMemoryCache) (now : Nat) (key : String) :
    Option CompletionResponse :=
  match m.store.lookup key with
  | none => none
  | some e => if e.expires < now then none else some e.val

/-- InMemoryCache.Set (middleware.go lines 187-192): overwrites the entry
wholesale with expiry now + ttl. -/
def InMemoryCache.Set (m : InMemoryCache) (now : Nat) (key : String)
    (v : CompletionResponse) (ttl : Nat) : InMemoryCache :=
  ⟨setKey m.store key { val := v, expires := now + ttl }⟩

/-- time.Hour in nanoseconds (Go time.Duration units). -/
def timeHour : Nat := 3600000000000

/-- The ttl defaulting of CacheMiddleware (middleware.go lines 123-126):
a non-positive configured ttl (Go time.Duration is signed) becomes one
hour. -/
def cacheTTLDefault (ttl : Int) : Nat :=
  if ttl ≤ 0 then timeHour else ttl.toNat

/-- The cache key computed by cacheProvider.Complete (middleware.go line
133): model, system and prompt joined by NUL bytes. -/
def cacheKey (req : CompletionRequest) : String :=
  req.model ++ "\x00" ++ req.system ++ "\x00" ++ req.prompt

/-- Outcome of one cacheProvider.Complete call: the new cache, the
returned (response, error), and whether the inner service was invoked. -/
structure CacheOutcome where
  cache : InMemoryCache
  result : Except GoError CompletionResponse
  innerCalled : Bool
deriving DecidableEq

/-- cacheProvider.Complete (middleware.go lines 132-152) over an
InMemoryCache (the cache is configured, so the nil-cache guards pass): on
a live entry return it without calling through; otherwise call the inner
service (outcome given by the oracle argument) and store a successful
response under the key with the configured ttl. -/
def cacheComplete (ttl : Nat) (m : InMemoryCache) (now : Nat) (req : CompletionRequest)
    (inner : Except GoError CompletionResponse) : CacheOutcome :=
  match m.Get now (cacheKey req) with
  | some resp => { cache := m, result := .ok resp, innerCalled := false }
  | none =>
      match inner with
      | .error e => { cache := m, result := .error e, innerCalled := true }
      | .ok resp =>
          { cache := m.Set now (cacheKey req) resp ttl, result := .ok resp, innerCalled := true }

/-! Concrete fixtures used to instantiate the theorems: constant-rendering
prompts, fixed responses, and small oracle providers. -/

/-- A fixed render result for the primary prompt. -/
def rendP : Rendered := { system := "S", user := "U", input := [] }

/-- A fixed render result for the fallback prompt. -/
def rendF : Rendered := { system := "S", user := "FU", input := [] }

/-- A primary prompt that always renders rendP. -/
def promptP : Prompt := { id := "P", metadata := [], renderF := fun _ => .ok rendP }

/-- A fallback prompt that always renders rendF. -/
def promptFB : Prompt := { id := "F", metadata := [], renderF := fun _ => .ok rendF }

/-- A prompt whose render always fails. -/
def promptBad : Prompt := { id := "B", metadata := [], renderF := fun _ => .error (.msg "render fail") }

/-- A render-only prompt producing the text "d". -/
def promptD : Prompt := { id := "D", metadata := [], renderF := fun _ => .ok { system := "", user := "d", input := [] } }

/-- A fixed successful response. -/
def respOK : CompletionResponse :=
  { content := "ok", model := "m1", usage := { promptTokens := 1, completionTokens := 2, totalTokens := 3 },
    finishReason := "stop", metadata := [] }

/-- A fixed successful response of the fallback prompt. -/
def respFB : CompletionResponse :=
  { content := "fb", model := "m1", usage := { promptTokens := 1, completionTokens := 2, totalTokens := 3 },
    finishReason := "stop", metadata := [] }

/-- A service that fails every call with a plain error. -/
def provFailAlways : ProviderF := fun _ _ _ => .error (.msg "boom")

/-- A service whose every call reports the context cancellation error (the
context is cancelled for the whole run). -/
def provCancelAlways : ProviderF := fun _ _ _ => .error .deadlineExceeded

/-- A service that fails the first k calls of the run and then succeeds. -/
def provSucceedAt (k : Nat) : ProviderF := fun _ i _ =>
  if i < k then .error (.msg "boom") else .ok respOK

/-- A service that answers only the fallback prompt's rendered text. -/
def provFallbackOnly : ProviderF := fun creq _ _ =>
  if creq.prompt = "FU" then .ok respFB else .error (.msg "boom")

/-- The empty starting trace. -/
def tr0 : Trace := { callIdx := 0, clock := 0, calls := [], renders := [] }

/-- Executor with a cancelled context (every Complete reports the context
error), one retry, and a backoff of 5 time units. -/
def exCancel : Executor :=
  { provider := provCancelAlways, maxRetries := 1, backoff := some (fun _ => 5), baseTimeout := 0 }

/-- Executor over the always-failing service with two retries. -/
def exFail3 : Executor :=
  { provider := provFailAlways, maxRetries := 2, backoff := none, baseTimeout := 0 }

/-- Executor over the fail-once-then-succeed service with two retries. -/
def exSucceed2 : Executor :=
  { provider := provSucceedAt 1, maxRetries := 2, backoff := none, baseTimeout := 0 }

/-- Executor over the fallback-only service without retries. -/
def exFallback : Executor :=
  { provider := provFallbackOnly, maxRetries := 0, backoff := none, baseTimeout := 0 }

/-- Executor over the always-failing service without retries. -/
def exFail1 : Executor :=
  { provider := provFailAlways, maxRetries := 0, backoff := none, baseTimeout := 0 }

/-- Executor over the always-succeeding service without retries. -/
def exOK : Executor :=
  { provider := provSucceedAt 0, maxRetries := 0, backoff := none, baseTimeout := 0 }

/-- A request for the primary prompt with an explicit model. -/
def reqBase : ExecuteRequest :=
  { prompt := some promptP, input := [], model := "m", temperature := 0, maxTokens := 0,
    stopTokens := [], timeout := 0 }

/-- A request whose prompt fails to render. -/
def reqBad : ExecuteRequest :=
  { prompt := some promptBad, input := [], model := "m", temperature := 0, maxTokens := 0,
    stopTokens := [], timeout := 0 }

/-- A request for the primary prompt with no model set. -/
def reqNoModel : ExecuteRequest :=
  { prompt := some promptP, input := [], model := "", temperature := 0, maxTokens := 0,
    stopTokens := [], timeout := 0 }

/-- A step with one retry and a fallback prompt. -/
def stepFB : stepDef :=
  { name := "s", prompt := some promptP, maxRetries := 1, backoff := none, timeout := 0,
    fallback := some promptFB, condition := none }

/-- Chain of the single fallback step over the fallback-only service. -/
def chainFB : Chain :=
  { name := "c", nodes := [{ parallel := false, steps := [stepFB] }], exec := some exFallback,
    defaultModel := "" }

/-- Chain of the single fallback step over the always-failing service. -/
def chainFBfail : Chain :=
  { name := "c", nodes := [{ parallel := false, steps := [stepFB] }], exec := some exFail1,
    defaultModel := "" }

/-- A plain step named "b" without retries, fallback or condition. -/
def stepB : stepDef :=
  { name := "b", prompt := some promptP, maxRetries := 0, backoff := none, timeout := 0,
    fallback := none, condition := none }

/-- Chain with the step "b" inside a parallel group, over the failing
service. -/
def chainParB : Chain :=
  { name := "c", nodes := [{ parallel := true, steps := [stepB] }], exec := some exFail1,
    defaultModel := "" }

/-- Chain with the step "b" as a sequential node, over the failing
service. -/
def chainSeqB : Chain :=
  { name := "c", nodes := [{ parallel := false, steps := [stepB] }], exec := some exFail1,
    defaultModel := "" }

/-- A step whose condition is constantly false. -/
def stepSkip : stepDef :=
  { name := "x", prompt := some promptD, maxRetries := 0, backoff := none, timeout := 0,
    fallback := none, condition := some (fun _ => false) }

/-- A render-only step named "d". -/
def stepD : stepDef :=
  { name := "d", prompt := some promptD, maxRetries := 0, backoff := none, timeout := 0,
    fallback := none, condition := none }

/-- A render-only chain (no executor). -/
def chainRO : Chain := { name := "c", nodes := [], exec := none, defaultModel := "" }

/-- Chain carrier for the per-step cancellation witness: failing service,
no executor-level retries. -/
def chainSel : Chain := { name := "c", nodes := [], exec := some exFail1, defaultModel := "" }

/-- A step with one step-level retry and a backoff of 10, used to witness
the ctx-aware select of runStep. -/
def stepSel : stepDef :=
  { name := "s", prompt := some promptP, maxRetries := 1, backoff := some (fun _ => 10),
    timeout := 0, fallback := none, condition := none }

/-- An empty in-memory cache. -/
def emptyCache : InMemoryCache := { store := [] }

/-- A fixed completion request for the cache theorems. -/
def reqCache : CompletionRequest :=
  { prompt := "p", system := "s", model := "m", temperature := 0, maxTokens := 0,
    stopTokens := [], topP := 0, metadata := [] }

/-- The Complete-call trace Executor.Execute produces when every attempt
fails: one call per attempt, the j-th issued after the fully slept backoff
delays of the previous attempts (closed-form companion of
executeAttempts used in the statements about the failing runs). -/
def expectedFailCalls (creq : CompletionRequest) (b : Option (Nat → Nat)) :
    Nat → Nat → Nat → Nat → List CallEv
  | _, callIdx, clock, 0 => [(creq, callIdx, clock)]
  | attempt, callIdx, clock, r + 1 =>
      (creq, callIdx, clock) ::
        expectedFailCalls creq b (attempt + 1) (callIdx + 1) (clock + backoffDelay b attempt) r

/-! Helper lemmas about the executor attempt loop. -/

lemma executeAttempts_all_fail (prov : ProviderF) (b : Option (Nat → Nat))
    (creq : CompletionRequest) (rend : Rendered) (f : Nat → GoError)
    (h : ∀ i clk, prov creq i clk = .error (f i)) :
    ∀ remaining attempt attempts callIdx clock : Nat,
      (executeAttempts prov b creq rend attempt remaining attempts callIdx clock).result =
        .error (.wrap ("executor after " ++ toString (attempts + remaining + 1) ++ " attempts")
          (f (callIdx + remaining))) ∧
      (executeAttempts prov b creq rend attempt remaining attempts callIdx clock).calls =
        expectedFailCalls creq b attempt callIdx clock remaining := by
  intro remaining
  induction remaining with
  | zero =>
      intro attempt attempts callIdx clock
      rw [executeAttempts]
      simp [h, expectedFailCalls]
  | succ r ih =>
      intro attempt attempts callIdx clock
      have hr := ih (attempt + 1) (attempts + 1) (callIdx + 1) (clock + backoffDelay b attempt)
      have e1 : attempts + 1 + r = attempts + (r + 1) := by omega
      have e2 : callIdx + 1 + r = callIdx + (r + 1) := by omega
      rw [e1, e2] at hr
      rw [executeAttempts]
      simp [h, expectedFailCalls, hr.1, hr.2]

lemma executeAttempts_succeeds (prov : ProviderF) (b : Option (Nat → Nat))
    (creq : CompletionRequest) (rend : Rendered) (resp : CompletionResponse) :
    ∀ K remaining attempt attempts callIdx clock : Nat,
      K ≤ remaining →
      (∀ j clk, j < K → ∃ er, prov creq (callIdx + j) clk = .error er) →
      (∀ clk, prov creq (callIdx + K) clk = .ok resp) →
      (executeAttempts prov b creq rend attempt remaining attempts callIdx clock).result =
        .ok { content := resp.content, usage := resp.usage, model := resp.model,
              rendered := rend, attempts := attempts + K + 1 } ∧
      (executeAttempts prov b creq rend attempt remaining attempts callIdx clock).calls.length
        = K + 1 := by
  intro K
  induction K with
  | zero =>
      intro remaining attempt attempts callIdx clock _ _ hK
      have h0 := hK clock
      rw [Nat.add_zero] at h0
      rw [executeAttempts]
      simp [h0]
  | succ k ih =>
      intro remaining attempt attempts callIdx clock hle hlt hK
      obtain ⟨er, h0⟩ := hlt 0 clock (by omega)
      rw [Nat.add_zero] at h0
      obtain ⟨r, rfl⟩ : ∃ r, remaining = r + 1 := ⟨remaining - 1, by omega⟩
      have ih1 := ih r (attempt + 1) (attempts + 1) (callIdx + 1)
        (clock + backoffDelay b attempt) (by omega)
        (fun j clk hj => by
          obtain ⟨e2, hx⟩ := hlt (j + 1) clk (by omega)
          exact ⟨e2, by rwa [show callIdx + 1 + j = callIdx + (j + 1) by omega]⟩)
        (fun clk => by
          have hx := hK clk
          rwa [show callIdx + (k + 1) = callIdx + 1 + k by omega] at hx)
      have e1 : attempts + 1 + k + 1 = attempts + (k + 1) + 1 := by omega
      rw [e1] at ih1
      rw [executeAttempts]
      simp [h0, ih1.1, ih1.2]

lemma executeAttempts_calls_shape (prov : ProviderF) (b : Option (Nat → Nat))
    (creq : CompletionRequest) (rend : Rendered) :
    ∀ remaining attempt attempts callIdx clock : Nat,
      (executeAttempts prov b creq rend attempt remaining attempts callIdx clock).calls ≠ [] ∧
      ∀ ev ∈ (executeAttempts prov b creq rend attempt remaining attempts callIdx clock).calls,
        ev.1 = creq := by
  intro remaining
  induction remaining with
  | zero =>
      intro attempt attempts callIdx clock
      rw [executeAttempts]
      cases hp : prov creq callIdx clock <;> simp [hp]
  | succ r ih =>
      intro attempt attempts callIdx clock
      rw [executeAttempts]
      cases hp : prov creq callIdx clock with
      | ok resp => simp [hp]
      | error e =>
          have hr := ih (attempt + 1) (attempts + 1) (callIdx + 1) (clock + backoffDelay b attempt)
          simp only [hp]
          refine ⟨by simp, ?_⟩
          intro ev hev
          simp only [List.mem_cons] at hev
          rcases hev with rfl | hev
          · rfl
          · exact hr.2 ev hev

lemma Execute_unfold (e : Executor) (req : ExecuteRequest) (p : Prompt) (rend : Rendered)
    (callIdx clock : Nat) (hp : req.prompt = some p) (hr : p.renderF req.input = .ok rend) :
    e.Execute req callIdx clock =
      { executeAttempts e.provider e.backoff (buildCReq p req rend) rend
          0 e.maxRetries 0 callIdx clock with renders := [p.id] } := by
  simp [Executor.Execute, hp, hr]

/-! Helper lemmas about chain step execution. -/

lemma expectedFailCalls_length (creq : CompletionRequest) (b : Option (Nat → Nat)) :
    ∀ r attempt callIdx clock : Nat,
      (expectedFailCalls creq b attempt callIdx clock r).length = r + 1 := by
  intro r
  induction r with
  | zero => intro attempt callIdx clock; simp [expectedFailCalls]
  | succ n ih => intro attempt callIdx clock; simp [expectedFailCalls, ih]

lemma lookup_setKey_self {α : Type} (k : String) (v : α) :
    ∀ m : List (String × α), (setKey m k v).lookup k = some v := by
  intro m
  induction m with
  | nil => simp [setKey, List.lookup]
  | cons q rest ih =>
      by_cases h : q.1 = k
      · cases q with
        | mk q1 q2 => simp_all [setKey, List.lookup]
      · cases q with
        | mk q1 q2 =>
            have hne : (k == q1) = false := beq_eq_false_iff_ne.mpr (fun he => h he.symm)
            simp only [setKey, h, if_false, List.lookup, hne, ih]

lemma ExecuteTr_const_fail (e : Executor) (req : ExecuteRequest) (p : Prompt)
    (rend : Rendered) (eP : GoError) (hp : req.prompt = some p)
    (hr : p.renderF req.input = .ok rend)
    (hfail : ∀ i clk, e.provider (buildCReq p req rend) i clk = .error eP) (tr : Trace) :
    (e.ExecuteTr req tr).1 =
      .error (.wrap ("executor after " ++ toString (e.maxRetries + 1) ++ " attempts") eP) := by
  have h := executeAttempts_all_fail e.provider e.backoff (buildCReq p req rend) rend
    (fun _ => eP) hfail e.maxRetries 0 0 tr.callIdx tr.clock
  simp only [Executor.ExecuteTr, Execute_unfold e req p rend tr.callIdx tr.clock hp hr]
  simpa using h.1

lemma ExecuteTr_const_ok (e : Executor) (req : ExecuteRequest) (p : Prompt)
    (rend : Rendered) (resp : CompletionResponse) (hp : req.prompt = some p)
    (hr : p.renderF req.input = .ok rend)
    (hok : ∀ i clk, e.provider (buildCReq p req rend) i clk = .ok resp) (tr : Trace) :
    (e.ExecuteTr req tr).1 =
      .ok { content := resp.content, usage := resp.usage, model := resp.model,
            rendered := rend, attempts := 1 } := by
  simp only [Executor.ExecuteTr, Execute_unfold e req p rend tr.callIdx tr.clock hp hr]
  rw [executeAttempts]
  simp [hok]

lemma runStepAttempts_fail_fb_ok (e : Executor) (req : ExecuteRequest) (s : stepDef)
    (fb : Prompt) (E : GoError) (rr : ExecuteResult)
    (hE : ∀ tr, (e.ExecuteTr req tr).1 = .error E)
    (hfb : s.fallback = some fb)
    (hfbok : ∀ tr, (e.ExecuteTr { req with prompt := some fb } tr).1 = .ok rr) :
    ∀ remaining attempt tr,
      (runStepAttempts e none req s attempt remaining tr).1 = .ok rr.content := by
  intro remaining
  induction remaining with
  | zero =>
      intro attempt tr
      rw [runStepAttempts]
      simp [hE, hfb, hfbok]
  | succ r ih =>
      intro attempt tr
      rw [runStepAttempts]
      simp only [hE]
      cases hb : s.backoff with
      | none => exact ih (attempt + 1) _
      | some b => exact ih (attempt + 1) _

lemma runStepAttempts_fail_fb_fail (e : Executor) (req : ExecuteRequest) (s : stepDef)
    (fb : Prompt) (E eF : GoError)
    (hE : ∀ tr, (e.ExecuteTr req tr).1 = .error E)
    (hfb : s.fallback = some fb)
    (hfberr : ∀ tr, (e.ExecuteTr { req with prompt := some fb } tr).1 = .error eF) :
    ∀ remaining attempt tr,
      (runStepAttempts e none req s attempt remaining tr).1 =
        .error (.wrap "step and fallback failed" E) := by
  intro remaining
  induction remaining with
  | zero =>
      intro attempt tr
      rw [runStepAttempts]
      simp [hE, hfb, hfberr]
  | succ r ih =>
      intro attempt tr
      rw [runStepAttempts]
      simp only [hE]
      cases hb : s.backoff with
      | none => exact ih (attempt + 1) _
      | some b => exact ih (attempt + 1) _

lemma runStepAttempts_fail_nofb (e : Executor) (req : ExecuteRequest) (s : stepDef)
    (E : GoError)
    (hE : ∀ tr, (e.ExecuteTr req tr).1 = .error E)
    (hfb : s.fallback = none) :
    ∀ remaining attempt tr,
      (runStepAttempts e none req s attempt remaining tr).1 = .error E := by
  intro remaining
  induction remaining with
  | zero =>
      intro attempt tr
      rw [runStepAttempts]
      simp [hE, hfb]
  | succ r ih =>
      intro attempt tr
      rw [runStepAttempts]
      simp only [hE]
      cases hb : s.backoff with
      | none => exact ih (attempt + 1) _
      | some b => exact ih (attempt + 1) _

lemma runStep_exec (c : Chain) (dl : Option Nat) (s : stepDef) (input : Input) (tr : Trace)
    (e : Executor) (hc : c.exec = some e) (hto : s.timeout = 0) :
    c.runStep dl s input tr = runStepAttempts e dl (stepReq c s input) s 0 s.maxRetries tr := by
  simp [Chain.runStep, hc, hto, ctxDeadline]

lemma Execute_single_seq (c : Chain) (dl : Option Nat) (input : Input) (tr : Trace)
    (s : stepDef) (hnodes : c.nodes = [{ parallel := false, steps := [s] }])
    (hskip : stepSkipped s [] = false) :
    c.Execute dl input tr =
      match (c.runStep dl s input tr).1 with
      | .error err => (none, some (.wrap ("chain step " ++ goQuote s.name) err))
      | .ok out => (some ⟨[(s.name, out)]⟩, none) := by
  simp only [Chain.Execute, hnodes, Chain.ExecuteNodes, execNode, execSeqSteps, hskip]
  cases ho : (c.runStep dl s input tr).1 with
  | error err => simp
  | ok out => simp [Chain.ExecuteNodes, setKey]

lemma Execute_single_par (c : Chain) (dl : Option Nat) (input : Input) (tr : Trace)
    (s : stepDef) (hnodes : c.nodes = [{ parallel := true, steps := [s] }])
    (hskip : stepSkipped s [] = false) :
    c.Execute dl input tr =
      match (c.runStep dl s input tr).1 with
      | .error err => (none, some err)
      | .ok out => (some ⟨[(s.name, out)]⟩, none) := by
  simp only [Chain.Execute, hnodes, Chain.ExecuteNodes, execNode, Chain.runParallel,
    runParallelCollect, hskip, if_false, Bool.false_eq_true, if_true]
  cases ho : (c.runStep dl s input tr).1 with
  | error err => simp [collectPairs]
  | ok out => simp [collectPairs, Chain.ExecuteNodes, setKey]

lemma runParallelCollect_skip (c : Chain) (dl : Option Nat)
    (res : List (String × String)) (input : Input) (s : stepDef)
    (hskip : stepSkipped s res = true) :
    ∀ (ss1 ss2 : List stepDef) (tr : Trace),
      runParallelCollect c dl res input (ss1 ++ s :: ss2) tr =
        runParallelCollect c dl res input (ss1 ++ ss2) tr := by
  intro ss1
  induction ss1 with
  | nil =>
      intro ss2 tr
      simp [runParallelCollect, hskip]
  | cons u ss1 ih =>
      intro ss2 tr
      simp only [List.cons_append, runParallelCollect]
      by_cases hu : stepSkipped u res = true
      · simp [hu, ih]
      · simp only [Bool.not_eq_true] at hu
        simp [hu, ih]

/-! Claim theorems. -/

/-- Claim C3: for every maxRetries = n, a permanently failing service makes
Executor.Execute invoke Complete exactly n + 1 times and return the wrapped
error naming the attempt count and the last failure with no result; a
service succeeding at 1-based attempt k + 1 makes Execute return
immediately with Attempts = k + 1. -/
theorem executor_attempt_count (e : Executor) (req : ExecuteRequest) (p : Prompt)
    (rend : Rendered) (f : Nat → GoError) (resp : CompletionResponse) (callIdx clock : Nat)
    (hp : req.prompt = some p) (hr : p.renderF req.input = .ok rend) :
    ((∀ i clk, e.provider (buildCReq p req rend) i clk = .error (f i)) →
       (e.Execute req callIdx clock).result =
         .error (.wrap ("executor after " ++ toString (e.maxRetries + 1) ++ " attempts")
           (f (callIdx + e.maxRetries))) ∧
       (e.Execute req callIdx clock).calls.length = e.maxRetries + 1) ∧
    (∀ k, k ≤ e.maxRetries →
       (∀ j clk, j < k → ∃ er, e.provider (buildCReq p req rend) (callIdx + j) clk = .error er) →
       (∀ clk, e.provider (buildCReq p req rend) (callIdx + k) clk = .ok resp) →
       (e.Execute req callIdx clock).result =
         .ok { content := resp.content, usage := resp.usage, model := resp.model,
               rendered := rend, attempts := k + 1 } ∧
       (e.Execute req callIdx clock).calls.length = k + 1) := by
  rw [Execute_unfold e req p rend callIdx clock hp hr]
  constructor
  · intro hfail
    have h := executeAttempts_all_fail e.provider e.backoff (buildCReq p req rend) rend
      f hfail e.maxRetries 0 0 callIdx clock
    refine ⟨by simpa using h.1, ?_⟩
    have hl := expectedFailCalls_length (buildCReq p req rend) e.backoff e.maxRetries 0 callIdx clock
    simp [h.2, hl]
  · intro k hk hlt hK
    have h := executeAttempts_succeeds e.provider e.backoff (buildCReq p req rend) rend resp
      k e.maxRetries 0 0 callIdx clock hk hlt hK
    exact ⟨by simpa using h.1, by simpa using h.2⟩

/-- Claim C3 witness: with maxRetries = 2 a permanently failing service is
called three times and the error reports 3 attempts; a service failing once
then succeeding returns with Attempts = 2. -/
theorem executor_attempt_count_witness :
    ((exFail3.Execute reqBase 0 0).result =
        .error (.wrap "executor after 3 attempts" (.msg "boom")) ∧
      (exFail3.Execute reqBase 0 0).calls.length = 3) ∧
    ((exSucceed2.Execute reqBase 0 0).result =
        .ok { content := "ok",
              usage := { promptTokens := 1, completionTokens := 2, totalTokens := 3 },
              model := "m1", rendered := rendP, attempts := 2 } ∧
      (exSucceed2.Execute reqBase 0 0).calls.length = 2) := by
  constructor
  · exact (executor_attempt_count exFail3 reqBase promptP rendP (fun _ => .msg "boom")
      respOK 0 0 rfl rfl).1 (fun i clk => rfl)
  · refine (executor_attempt_count exSucceed2 reqBase promptP rendP (fun _ => .msg "boom")
      respOK 0 0 rfl rfl).2 1 (by decide) ?_ (fun clk => rfl)
    intro j clk hj
    have hj0 : j = 0 := by omega
    subst hj0
    exact ⟨.msg "boom", rfl⟩

/-- Claim C10: when ExecuteRequest.Model is empty (and nothing overrode
it), every completion request Executor.Execute sends to the provider
carries the defaulted model "gpt-3.5-turbo", and at least one request is
sent. -/
theorem executor_default_model (e : Executor) (req : ExecuteRequest) (p : Prompt)
    (rend : Rendered) (callIdx clock : Nat) (hm : req.model = "")
    (hp : req.prompt = some p) (hr : p.renderF req.input = .ok rend) :
    (e.Execute req callIdx clock).calls ≠ [] ∧
    ∀ ev ∈ (e.Execute req callIdx clock).calls, ev.1.model = "gpt-3.5-turbo" := by
  have hshape := executeAttempts_calls_shape e.provider e.backoff (buildCReq p req rend)
    rend e.maxRetries 0 0 callIdx clock
  have hmodel : (buildCReq p req rend).model = "gpt-3.5-turbo" := by
    simp [buildCReq, hm]
  rw [Execute_unfold e req p rend callIdx clock hp hr]
  refine ⟨by simpa using hshape.1, ?_⟩
  intro ev hev
  have hc := hshape.2 ev (by simpa using hev)
  rw [hc, hmodel]

/-- Claim C10 witness: an Execute with an empty request model sends the
defaulted model. -/
theorem executor_default_model_witness :
    (exOK.Execute reqNoModel 0 0).calls ≠ [] ∧
    ∀ ev ∈ (exOK.Execute reqNoModel 0 0).calls, ev.1.model = "gpt-3.5-turbo" :=
  executor_default_model exOK reqNoModel promptP rendP 0 0 rfl rfl rfl

/-- Claim C9: Chain.Execute never returns recorded outputs together with an
error: every run yields either (nil, err) — discarding prior steps'
outputs — or a full result with no error. -/
theorem chain_execute_nil_on_error (c : Chain) (dl : Option Nat) (input : Input) (tr : Trace) :
    (∃ e, c.Execute dl input tr = (none, some e)) ∨
    (∃ r, c.Execute dl input tr = (some r, none)) := by
  cases hx : c.ExecuteNodes dl c.nodes { result := [], current := input, tr := tr } with
  | error e => exact Or.inl ⟨e, by simp [Chain.Execute, hx]⟩
  | ok st => exact Or.inr ⟨⟨st.result⟩, by simp [Chain.Execute, hx]⟩

/-- Claim C1 counterexample: with a context cancelled for the whole run
(every Complete reports the context error) and maxRetries = 1 with a
backoff of 5, Executor.Execute does not return immediately with the
cancellation error after the first attempt: it sleeps the full backoff
(the second call is issued at clock 5) and retries the cancellation error,
returning the exhausted-retries wrapper after 2 attempts. -/
theorem executor_cancellation_cex :
    (exCancel.Execute reqBase 0 0).result =
      .error (.wrap "executor after 2 attempts" .deadlineExceeded) ∧
    (exCancel.Execute reqBase 0 0).calls =
      [(buildCReq promptP reqBase rendP, 0, 0), (buildCReq promptP reqBase rendP, 1, 5)] ∧
    ¬ ((exCancel.Execute reqBase 0 0).result = .error .deadlineExceeded ∧
       (exCancel.Execute reqBase 0 0).calls.length = 1) := by
  decide

/-- Claim C1 amended: Executor.Execute does not check cancellation during
the backoff sleep and does not special-case cancellation errors from
Complete — every failure, a cancellation error included, is retried after
the full uninterruptible backoff delay until the attempts are exhausted
(part 1: the call trace follows the full backoff schedule regardless of
the error kind); render failures alone are fatal without any Complete call
(part 2); the spec behavior — the backoff sleep returning the context
error as soon as the deadline fires inside it — is implemented only by
Chain.runStep's per-step retry loop (part 3). -/
theorem executor_retry_semantics :
    (∀ (e : Executor) (req : ExecuteRequest) (p : Prompt) (rend : Rendered)
       (f : Nat → GoError) (callIdx clock : Nat),
       req.prompt = some p → p.renderF req.input = .ok rend →
       (∀ i clk, e.provider (buildCReq p req rend) i clk = .error (f i)) →
       (e.Execute req callIdx clock).result =
         .error (.wrap ("executor after " ++ toString (e.maxRetries + 1) ++ " attempts")
           (f (callIdx + e.maxRetries))) ∧
       (e.Execute req callIdx clock).calls =
         expectedFailCalls (buildCReq p req rend) e.backoff 0 callIdx clock e.maxRetries) ∧
    (∀ (e : Executor) (req : ExecuteRequest) (p : Prompt) (err : GoError) (callIdx clock : Nat),
       req.prompt = some p → p.renderF req.input = .error err →
       (e.Execute req callIdx clock).result = .error (.wrap "executor render" err) ∧
       (e.Execute req callIdx clock).calls = []) ∧
    (∀ (c : Chain) (e : Executor) (s : stepDef) (input : Input) (tr : Trace)
       (b : Nat → Nat) (dl : Nat) (err : GoError) (r : Nat),
       c.exec = some e → s.timeout = 0 → s.backoff = some b → s.maxRetries = r + 1 →
       (e.ExecuteTr (stepReq c s input) tr).1 = .error err →
       dl < (e.ExecuteTr (stepReq c s input) tr).2.clock + b 0 →
       (c.runStep (some dl) s input tr).1 = .error .deadlineExceeded) := by
  refine ⟨?_, ?_, ?_⟩
  · intro e req p rend f callIdx clock hp hr hfail
    have h := executeAttempts_all_fail e.provider e.backoff (buildCReq p req rend) rend
      f hfail e.maxRetries 0 0 callIdx clock
    rw [Execute_unfold e req p rend callIdx clock hp hr]
    exact ⟨by simpa using h.1, by simpa using h.2⟩
  · intro e req p err callIdx clock hp hr
    simp [Executor.Execute, hp, hr]
  · intro c e s input tr b dl err r hc hto hb hmr hfail hdl
    rw [runStep_exec c (some dl) s input tr e hc hto, hmr]
    rw [runStepAttempts]
    simp only [hfail, hb]
    simp [if_pos hdl]

/-- Claim C1 amended witness: the always-cancelled run makes two calls
following the backoff schedule; a render failure produces the render error
with no calls; and a chain step whose deadline (3) fires inside the first
backoff sleep (10) returns the context error. -/
theorem executor_retry_semantics_witness :
    ((exCancel.Execute reqBase 0 0).result =
        .error (.wrap "executor after 2 attempts" .deadlineExceeded) ∧
      (exCancel.Execute reqBase 0 0).calls =
        expectedFailCalls (buildCReq promptP reqBase rendP) exCancel.backoff 0 0 0 1) ∧
    ((exFail1.Execute reqBad 0 0).result =
        .error (.wrap "executor render" (.msg "render fail")) ∧
      (exFail1.Execute reqBad 0 0).calls = []) ∧
    (chainSel.runStep (some 3) stepSel [] tr0).1 = .error .deadlineExceeded := by
  refine ⟨?_, ?_, ?_⟩
  · exact executor_retry_semantics.1 exCancel reqBase promptP rendP
      (fun _ => .deadlineExceeded) 0 0 rfl rfl (fun i clk => rfl)
  · exact executor_retry_semantics.2.1 exFail1 reqBad promptBad (.msg "render fail") 0 0 rfl rfl
  · exact executor_retry_semantics.2.2 chainSel exFail1 stepSel [] tr0 (fun _ => 10) 3
      (.wrap "executor after 1 attempts" (.msg "boom")) 0 rfl rfl rfl rfl (by decide) (by decide)

/-- Claim C2 counterexample: a half-open breaker whose admitted request
succeeds transitions to closed but the counters are NOT reset to zero —
from (requests, failures) = (10, 10) the successful half-open call leaves
(11, 10). -/
theorem cb_halfopen_counters_cex :
    (cbComplete (1/2) 5 { requests := 10, failures := 10, state := .cbHalfOpen, openUntil := 7 }
        100 (.ok respOK)).st =
      { requests := 11, failures := 10, state := .cbClosed, openUntil := 7 } ∧
    (cbComplete (1/2) 5 { requests := 10, failures := 10, state := .cbHalfOpen, openUntil := 7 }
        100 (.ok respOK)).st.requests ≠ 0 ∧
    (cbComplete (1/2) 5 { requests := 10, failures := 10, state := .cbHalfOpen, openUntil := 7 }
        100 (.ok respOK)).st.failures ≠ 0 := by
  decide

/-- Claim C2 amended: in the half-open state the admitted request reaches
the inner service; its success transitions the breaker to closed but the
requestCount and failureCount counters are NOT reset (the request counter
grows by one, the failure counter is unchanged); its failure transitions
back to open with a fresh openUntil = now + timeout. -/
theorem cb_halfopen_transition (threshold : Rat) (timeout : Nat) (st : CBState) (now : Nat)
    (inner : Except GoError CompletionResponse) (h : st.state = .cbHalfOpen) :
    (cbComplete threshold timeout st now inner).innerCalled = true ∧
    (∀ resp, inner = .ok resp →
       (cbComplete threshold timeout st now inner).st =
         { st with requests := st.requests + 1, state := .cbClosed } ∧
       (cbComplete threshold timeout st now inner).result = .ok resp) ∧
    (∀ e2, inner = .error e2 →
       (cbComplete threshold timeout st now inner).st =
         { st with requests := st.requests + 1, failures := st.failures + 1,
                   state := .cbOpen, openUntil := now + timeout } ∧
       (cbComplete threshold timeout st now inner).result = .error e2) := by
  cases inner with
  | ok resp => simp [cbComplete, h]
  | error e2 => simp [cbComplete, h]

/-- Claim C2 amended witness: a concrete half-open breaker closing on
success without resetting counters, and re-opening on failure with a fresh
openUntil. -/
theorem cb_halfopen_transition_witness :
    (cbComplete (1/2) 5 { requests := 10, failures := 10, state := .cbHalfOpen, openUntil := 7 }
        100 (.ok respOK)).st =
      { requests := 11, failures := 10, state := .cbClosed, openUntil := 7 } ∧
    (cbComplete (1/2) 5 { requests := 10, failures := 10, state := .cbHalfOpen, openUntil := 7 }
        100 (.error (.msg "x"))).st =
      { requests := 11, failures := 11, state := .cbOpen, openUntil := 105 } := by
  constructor
  · exact ((cb_halfopen_transition (1/2) 5
      { requests := 10, failures := 10, state := .cbHalfOpen, openUntil := 7 } 100
      (.ok respOK) rfl).2.1 respOK rfl).1
  · exact ((cb_halfopen_transition (1/2) 5
      { requests := 10, failures := 10, state := .cbHalfOpen, openUntil := 7 } 100
      (.error (.msg "x")) rfl).2.2 (.msg "x") rfl).1

/-- Claim C4: the breaker moves from closed to open only once at least 10
requests (including the current one) have been counted and the failure
rate reaches the threshold, setting openUntil = now + timeout; and while
open with now < openUntil every Complete fails immediately with
context.DeadlineExceeded, leaves the state untouched and never reaches the
inner service. -/
theorem cb_open_invariants (threshold : Rat) (timeout : Nat) (st : CBState) (now : Nat)
    (inner : Except GoError CompletionResponse) :
    (st.state = .cbClosed →
       (cbComplete threshold timeout st now inner).st.state = .cbOpen →
       10 ≤ st.requests + 1 ∧
       threshold ≤ ((st.failures : Rat) + 1) / ((st.requests : Rat) + 1) ∧
       (cbComplete threshold timeout st now inner).st.openUntil = now + timeout) ∧
    (st.state = .cbOpen → now < st.openUntil →
       (cbComplete threshold timeout st now inner).result = .error .deadlineExceeded ∧
       (cbComplete threshold timeout st now inner).innerCalled = false ∧
       (cbComplete threshold timeout st now inner).st = st) := by
  constructor
  · intro h1 h2
    cases inner with
    | ok resp =>
        exfalso
        simp [cbComplete, h1] at h2
    | error e2 =>
        by_cases hC : 9 ≤ st.requests ∧
            threshold ≤ ((st.failures : Rat) + 1) / ((st.requests : Rat) + 1)
        · refine ⟨by omega, hC.2, ?_⟩
          simp [cbComplete, h1, Nat.cast_add, Nat.cast_one, hC.1, hC.2]
        · exfalso
          simp [cbComplete, h1, Nat.cast_add, Nat.cast_one, hC] at h2
  · intro h1 h2
    simp [cbComplete, h1, h2]

/-- Claim C4 witness: a closed breaker at (9, 9) takes a failing request to
(10, 10), rate 1 over threshold 1/2, and opens until now + timeout; an open
breaker before openUntil fails fast without touching anything. -/
theorem cb_open_invariants_witness :
    (10 ≤ 9 + 1 ∧
      (1/2 : Rat) ≤ (((9 : Nat) : Rat) + 1) / (((9 : Nat) : Rat) + 1) ∧
      (cbComplete (1/2) 5 { requests := 9, failures := 9, state := .cbClosed, openUntil := 0 }
          100 (.error (.msg "x"))).st.openUntil = 100 + 5) ∧
    ((cbComplete (1/2) 5 { requests := 3, failures := 2, state := .cbOpen, openUntil := 50 }
          10 (.ok respOK)).result = .error .deadlineExceeded ∧
      (cbComplete (1/2) 5 { requests := 3, failures := 2, state := .cbOpen, openUntil := 50 }
          10 (.ok respOK)).innerCalled = false ∧
      (cbComplete (1/2) 5 { requests := 3, failures := 2, state := .cbOpen, openUntil := 50 }
          10 (.ok respOK)).st =
        { requests := 3, failures := 2, state := .cbOpen, openUntil := 50 }) := by
  constructor
  · exact (cb_open_invariants (1/2) 5
      { requests := 9, failures := 9, state := .cbClosed, openUntil := 0 } 100
      (.error (.msg "x"))).1 rfl (by simp [cbComplete]; norm_num)
  · exact (cb_open_invariants (1/2) 5
      { requests := 3, failures := 2, state := .cbOpen, openUntil := 50 } 10
      (.ok respOK)).2 rfl (by decide)

/-- Claim C5: a second Complete with the same (model, system, prompt) key
before the stored entry's expiry is served from the cache — the inner
service is invoked exactly once over the two calls and the second returns
the stored response (part 1); Get never returns an entry strictly after
its expiry (part 2); a non-positive configured TTL defaults to one hour
(part 3) and Set stores the entry with expiry now + ttl (part 4). -/
theorem cache_complete_spec :
    (∀ (ttl : Nat) (m : InMemoryCache) (now1 now2 : Nat) (req : CompletionRequest)
       (resp : CompletionResponse) (inner2 : Except GoError CompletionResponse),
       m.Get now1 (cacheKey req) = none →
       now2 ≤ now1 + ttl →
       (cacheComplete ttl m now1 req (.ok resp)).innerCalled = true ∧
       (cacheComplete ttl m now1 req (.ok resp)).result = .ok resp ∧
       (cacheComplete ttl (cacheComplete ttl m now1 req (.ok resp)).cache now2 req inner2).innerCalled
         = false ∧
       (cacheComplete ttl (cacheComplete ttl m now1 req (.ok resp)).cache now2 req inner2).result
         = .ok resp) ∧
    (∀ (m : InMemoryCache) (now : Nat) (key : String) (en : cacheEntry),
       m.store.lookup key = some en → en.expires < now → m.Get now key = none) ∧
    (∀ t : Int, t ≤ 0 → cacheTTLDefault t = timeHour) ∧
    (∀ (m : InMemoryCache) (now : Nat) (key : String) (v : CompletionResponse) (ttl : Nat),
       (m.Set now key v ttl).store.lookup key
         = some { val := v, expires := now + ttl }) := by
  refine ⟨?_, ?_, ?_, ?_⟩
  · intro ttl m now1 now2 req resp inner2 hmiss hlive
    have h1 : cacheComplete ttl m now1 req (.ok resp) =
        { cache := m.Set now1 (cacheKey req) resp ttl, result := .ok resp,
          innerCalled := true } := by
      simp [cacheComplete, hmiss]
    have hget : (m.Set now1 (cacheKey req) resp ttl).Get now2 (cacheKey req) = some resp := by
      simp only [InMemoryCache.Get, InMemoryCache.Set, lookup_setKey_self]
      rw [if_neg (by omega)]
    rw [h1]
    simp [cacheComplete, hget]
  · intro m now key en hlook hexp
    simp [InMemoryCache.Get, hlook, hexp]
  · intro t ht
    simp [cacheTTLDefault, ht]
  · intro m now key v ttl
    simp [InMemoryCache.Set, lookup_setKey_self]

/-- Claim C5 witness: a concrete miss-then-hit pair on an empty cache, an
expired entry missing, the one-hour default for TTL 0, and a stored
entry's expiry. -/
theorem cache_complete_spec_witness :
    ((cacheComplete 10 emptyCache 0 reqCache (.ok respOK)).innerCalled = true ∧
      (cacheComplete 10 emptyCache 0 reqCache (.ok respOK)).result = .ok respOK ∧
      (cacheComplete 10 (cacheComplete 10 emptyCache 0 reqCache (.ok respOK)).cache 5 reqCache
          (.error (.msg "x"))).innerCalled = false ∧
      (cacheComplete 10 (cacheComplete 10 emptyCache 0 reqCache (.ok respOK)).cache 5 reqCache
          (.error (.msg "x"))).result = .ok respOK) ∧
    (InMemoryCache.Get ⟨[("k", { val := respOK, expires := 3 })]⟩ 4 "k" = none) ∧
    cacheTTLDefault 0 = timeHour ∧
    (emptyCache.Set 2 "k" respOK 10).store.lookup "k"
      = some { val := respOK, expires := 12 } := by
  refine ⟨?_, ?_, ?_, ?_⟩
  · exact cache_complete_spec.1 10 emptyCache 0 5 reqCache respOK (.error (.msg "x"))
      rfl (by decide)
  · exact cache_complete_spec.2.1 ⟨[("k", { val := respOK, expires := 3 })]⟩ 4 "k"
      { val := respOK, expires := 3 } rfl (by decide)
  · exact cache_complete_spec.2.2.1 0 (by decide)
  · exact cache_complete_spec.2.2.2 emptyCache 2 "k" respOK 10

/-- Claim C6: in a chain step with a fallback, when the primary prompt
fails every retry and the fallback execution succeeds, runStep returns the
fallback's output and — as the only node of a chain — the step's
ChainResult entry is the fallback's output with no error; when the
fallback also fails, the returned error wraps the original primary error
(the exhausted-retries wrapper of the primary failure), not the
fallback's. -/
theorem chain_fallback_spec (c : Chain) (e : Executor) (s : stepDef) (p fb : Prompt)
    (rendP1 rendF1 : Rendered) (input : Input) (tr : Trace) (eP : GoError)
    (respF : CompletionResponse)
    (hc : c.exec = some e) (hto : s.timeout = 0) (hp : s.prompt = some p)
    (hfb : s.fallback = some fb)
    (hrp : p.renderF input = .ok rendP1) (hrf : fb.renderF input = .ok rendF1)
    (hprim : ∀ i clk, e.provider (buildCReq p (stepReq c s input) rendP1) i clk = .error eP) :
    ((∀ i clk, e.provider
         (buildCReq fb { stepReq c s input with prompt := some fb } rendF1) i clk = .ok respF) →
       (c.runStep none s input tr).1 = .ok respF.content ∧
       (s.condition = none → c.nodes = [{ parallel := false, steps := [s] }] →
         c.Execute none input tr = (some ⟨[(s.name, respF.content)]⟩, none))) ∧
    (∀ eF, (∀ i clk, e.provider
         (buildCReq fb { stepReq c s input with prompt := some fb } rendF1) i clk = .error eF) →
       (c.runStep none s input tr).1 =
         .error (.wrap "step and fallback failed"
           (.wrap ("executor after " ++ toString (e.maxRetries + 1) ++ " attempts") eP))) := by
  have hreqp : (stepReq c s input).prompt = some p := by simp [stepReq, hp]
  have hreqi : p.renderF (stepReq c s input).input = .ok rendP1 := by simp [stepReq, hrp]
  have hE := fun tr2 => ExecuteTr_const_fail e (stepReq c s input) p rendP1 eP
    hreqp hreqi hprim tr2
  constructor
  · intro hfbok
    have hO := fun tr2 => ExecuteTr_const_ok e { stepReq c s input with prompt := some fb }
      fb rendF1 respF rfl (by simp [stepReq, hrf]) hfbok tr2
    have hrun : (c.runStep none s input tr).1 = .ok respF.content := by
      rw [runStep_exec c none s input tr e hc hto]
      exact runStepAttempts_fail_fb_ok e (stepReq c s input) s fb _ _ hE hfb hO
        s.maxRetries 0 tr
    refine ⟨hrun, ?_⟩
    intro hcond hnodes
    rw [Execute_single_seq c none input tr s hnodes (by simp [stepSkipped, hcond]), hrun]
  · intro eF hfberr
    have hO := fun tr2 => ExecuteTr_const_fail e { stepReq c s input with prompt := some fb }
      fb rendF1 eF rfl (by simp [stepReq, hrf]) hfberr tr2
    rw [runStep_exec c none s input tr e hc hto]
    exact runStepAttempts_fail_fb_fail e (stepReq c s input) s fb _
      (.wrap ("executor after " ++ toString (e.maxRetries + 1) ++ " attempts") eF)
      hE hfb hO s.maxRetries 0 tr

/-- Claim C6 witness: the concrete fallback chain yields the fallback's
output "fb" as the step's entry with no error, and when the fallback also
fails the error wraps the primary exhausted-retries failure. -/
theorem chain_fallback_spec_witness :
    (chainFB.runStep none stepFB [] tr0).1 = .ok "fb" ∧
    chainFB.Execute none [] tr0 = (some ⟨[("s", "fb")]⟩, none) ∧
    (chainFBfail.runStep none stepFB [] tr0).1 =
      .error (.wrap "step and fallback failed"
        (.wrap "executor after 1 attempts" (.msg "boom"))) := by
  have h1 := (chain_fallback_spec chainFB exFallback stepFB promptP promptFB rendP rendF
    [] tr0 (.msg "boom") respFB rfl rfl rfl rfl rfl rfl (fun i clk => rfl)).1
    (fun i clk => rfl)
  have h2 := (chain_fallback_spec chainFBfail exFail1 stepFB promptP promptFB rendP rendF
    [] tr0 (.msg "boom") respFB rfl rfl rfl rfl rfl rfl (fun i clk => rfl)).2
    (.msg "boom") (fun i clk => rfl)
  exact ⟨h1.1, h1.2 rfl rfl, h2⟩

/-- Claim C7 counterexample: the same always-failing step "b" produces, as
a sequential node, an error annotated "chain step \x22b\x22", but inside a
parallel group Chain.Execute returns the step's error bare — the
annotation with the failing step's name is absent for parallel steps. -/
theorem chain_parallel_error_cex :
    chainParB.Execute none [] tr0 =
      (none, some (.wrap "executor after 1 attempts" (.msg "boom"))) ∧
    chainSeqB.Execute none [] tr0 =
      (none, some (.wrap ("chain step " ++ goQuote "b")
        (.wrap "executor after 1 attempts" (.msg "boom")))) ∧
    ¬ chainParB.Execute none [] tr0 =
        (none, some (.wrap ("chain step " ++ goQuote "b")
          (.wrap "executor after 1 attempts" (.msg "boom")))) := by
  decide

/-- Claim C7 amended: the error of a step that exhausts retries and
fallback is annotated with the failing step's name only for sequential
nodes; for a step inside a parallel group the error is propagated as the
chain's error without the step-name annotation. -/
theorem chain_error_step_name (c : Chain) (dl : Option Nat) (s : stepDef) (input : Input)
    (tr : Trace) (err : GoError) (hskip : stepSkipped s [] = false)
    (hrs : (c.runStep dl s input tr).1 = .error err) :
    (c.nodes = [{ parallel := false, steps := [s] }] →
       c.Execute dl input tr = (none, some (.wrap ("chain step " ++ goQuote s.name) err))) ∧
    (c.nodes = [{ parallel := true, steps := [s] }] →
       c.Execute dl input tr = (none, some err)) := by
  constructor
  · intro hnodes
    rw [Execute_single_seq c dl input tr s hnodes hskip, hrs]
  · intro hnodes
    rw [Execute_single_par c dl input tr s hnodes hskip, hrs]

/-- Claim C7 amended witness: the concrete failing step "b" annotated when
sequential, bare when parallel. -/
theorem chain_error_step_name_witness :
    chainSeqB.Execute none [] tr0 =
      (none, some (.wrap ("chain step " ++ goQuote "b")
        (.wrap "executor after 1 attempts" (.msg "boom")))) ∧
    chainParB.Execute none [] tr0 =
      (none, some (.wrap "executor after 1 attempts" (.msg "boom"))) := by
  constructor
  · exact (chain_error_step_name chainSeqB none stepB [] tr0
      (.wrap "executor after 1 attempts" (.msg "boom")) rfl (by decide)).1 rfl
  · exact (chain_error_step_name chainParB none stepB [] tr0
      (.wrap "executor after 1 attempts" (.msg "boom")) rfl (by decide)).2 rfl

/-- Claim C8: a step whose condition evaluates false against the current
ChainResult is skipped entirely — executing the chain with the skipped
step equals executing it with the step removed, both as a sequential node
(part 1) and inside a parallel group (part 2): no output entry, no render,
no provider call, no error, all other outputs unaffected; in particular
the skipped node leaves the whole chain state untouched (part 3). -/
theorem chain_condition_skip (c : Chain) (dl : Option Nat) (s : stepDef)
    (cond : ChainResult → Bool) (hcond : s.condition = some cond) :
    (∀ (post : List node) (st : ChainState), cond ⟨st.result⟩ = false →
       c.ExecuteNodes dl ({ parallel := false, steps := [s] } :: post) st =
         c.ExecuteNodes dl post st) ∧
    (∀ (ss1 ss2 : List stepDef) (post : List node) (st : ChainState),
       cond ⟨st.result⟩ = false →
       c.ExecuteNodes dl ({ parallel := true, steps := ss1 ++ s :: ss2 } :: post) st =
         c.ExecuteNodes dl ({ parallel := true, steps := ss1 ++ ss2 } :: post) st) ∧
    (∀ st : ChainState, cond ⟨st.result⟩ = false →
       c.ExecuteNodes dl [{ parallel := false, steps := [s] }] st = .ok st) := by
  refine ⟨?_, ?_, ?_⟩
  · intro post st hf
    have hsk : stepSkipped s st.result = true := by simp [stepSkipped, hcond, hf]
    simp [Chain.ExecuteNodes, execNode, execSeqSteps, hsk]
  · intro ss1 ss2 post st hf
    have hsk : stepSkipped s st.result = true := by simp [stepSkipped, hcond, hf]
    have hcoll := runParallelCollect_skip c dl st.result st.current s hsk ss1 ss2 st.tr
    simp [Chain.ExecuteNodes, execNode, Chain.runParallel, hcoll]
  · intro st hf
    have hsk : stepSkipped s st.result = true := by simp [stepSkipped, hcond, hf]
    simp [Chain.ExecuteNodes, execNode, execSeqSteps, hsk]

/-- Claim C8 witness: a concrete chain where the always-false step "x" is
skipped — running it before the render-only step "d" equals running "d"
alone, in a sequential node and inside a parallel group, and the skipping
node alone leaves the state untouched. -/
theorem chain_condition_skip_witness :
    (chainRO.ExecuteNodes none
        [{ parallel := false, steps := [stepSkip] }, { parallel := false, steps := [stepD] }]
        { result := [], current := [], tr := tr0 } =
      chainRO.ExecuteNodes none [{ parallel := false, steps := [stepD] }]
        { result := [], current := [], tr := tr0 }) ∧
    (chainRO.ExecuteNodes none [{ parallel := true, steps := [stepD, stepSkip] }]
        { result := [], current := [], tr := tr0 } =
      chainRO.ExecuteNodes none [{ parallel := true, steps := [stepD] }]
        { result := [], current := [], tr := tr0 }) ∧
    chainRO.ExecuteNodes none [{ parallel := false, steps := [stepSkip] }]
        { result := [], current := [], tr := tr0 } =
      .ok { result := [], current := [], tr := tr0 } := by
  refine ⟨?_, ?_, ?_⟩
  · exact (chain_condition_skip chainRO none stepSkip (fun _ => false) rfl).1
      [{ parallel := false, steps := [stepD] }] { result := [], current := [], tr := tr0 } rfl
  · exact (chain_condition_skip chainRO none stepSkip (fun _ => false) rfl).2.1
      [stepD] [] [] { result := [], current := [], tr := tr0 } rfl
  · exact (chain_condition_skip chainRO none stepSkip (fun _ => false) rfl).2.2
      { result := [], current := [], tr := tr0 } rfl

end Loom
